import Mathlib

/-!
Verification of the sda-automation-service core against its specification.

The development shallowly embeds the Python modules
`automation_service/services/browser.py`, `login_flow.py`,
`orchestrator.py` and `extractors/tasks.py`.  Pure string manipulation is
translated to executable functions over `List Char`; the stateful browser
manager becomes explicit state passing over `BMState`; every browser/DOM
operation performed through the external Playwright driver is abstracted as
an environment field describing its outcome (success, timeout, or raised
exception), since the driver is out of scope of the specification.
-/

namespace SdaAutomation

/-! ## Python string primitives

Executable models of the Python `str` operations used by the source:
`lower`, `in` (substring test), `split(sep, 1)`, `rsplit(sep, 1)`,
`strip`, `replace`, `startswith`, and slicing. -/

/-- Model of Python `str.lower` on one character: ASCII case folding plus the
accented Spanish capitals that occur in this domain (Python lowercases full
Unicode; only these characters are relevant to the embedded code). -/
def pyCharLower (c : Char) : Char :=
  if c = 'Á' then 'á'
  else if c = 'É' then 'é'
  else if c = 'Í' then 'í'
  else if c = 'Ó' then 'ó'
  else if c = 'Ú' then 'ú'
  else if c = 'Ü' then 'ü'
  else if c = 'Ñ' then 'ñ'
  else c.toLower

/-- Model of Python `str.lower`. -/
def pyLower (l : List Char) : List Char := l.map pyCharLower

/-- `str.lower` on `String`. -/
def pyLowerS (s : String) : String := ⟨pyLower s.data⟩

/-- Split at the first occurrence of `sep`, returning the pieces before and
after it; `none` when `sep` does not occur.  Models Python
`s.split(sep, 1)` (which yields two pieces exactly when `sep` occurs). -/
def splitFirst (sep : List Char) : List Char → Option (List Char × List Char)
  | [] => if sep.isPrefixOf ([] : List Char) then some ([], []) else none
  | c :: t =>
    if sep.isPrefixOf (c :: t) then some ([], (c :: t).drop sep.length)
    else (splitFirst sep t).map (fun p => (c :: p.1, p.2))

/-- Model of Python `sep in s` (substring containment). -/
def containsB (hay sep : List Char) : Bool := (splitFirst sep hay).isSome

/-- Substring containment on `String`. -/
def strContains (hay needle : String) : Bool := containsB hay.data needle.data

/-- Split at the last occurrence of `sep`; models Python `s.rsplit(sep, 1)`
(which yields two pieces exactly when `sep` occurs). -/
def splitLast (sep hay : List Char) : Option (List Char × List Char) :=
  (splitFirst sep.reverse hay.reverse).map (fun p => (p.2.reverse, p.1.reverse))

/-- Model of Python `str.strip()`: drop whitespace from both ends. -/
def pyStrip (l : List Char) : List Char :=
  (((l.dropWhile Char.isWhitespace).reverse).dropWhile Char.isWhitespace).reverse

/-- Auxiliary recursion for `replaceAll`, fuelled by the length of the text.
Each step removes the leftmost occurrence of `old` and continues after it,
exactly like Python `str.replace`. -/
def replaceAllAux (old new : List Char) : Nat → List Char → List Char
  | 0, hay => hay
  | fuel + 1, hay =>
    match splitFirst old hay with
    | none => hay
    | some (a, b) => a ++ new ++ replaceAllAux old new fuel b

/-- Model of Python `s.replace(old, new)` (all occurrences, left to right,
the replacement text is not rescanned). -/
def replaceAll (hay old new : List Char) : List Char :=
  replaceAllAux old new hay.length hay

/-- The first character exists and is not whitespace. -/
def headNonWS (l : List Char) : Bool :=
  match l.head? with
  | some c => !c.isWhitespace
  | none => false

/-- The last character exists and is not whitespace. -/
def lastNonWS (l : List Char) : Bool :=
  match l.getLast? with
  | some c => !c.isWhitespace
  | none => false

/-! ## Club-type detection (`LoginFlow._detect_club_type`) -/

/-- Embedding of `LoginFlow._detect_club_type` (login_flow.py lines
340-351): lowercase the text, then test the three category substrings in
order; unrecognized text yields `none`.  The function is total, modeling
that the Python code cannot raise. -/
def detectClubType (text : String) : Option String :=
  let t := pyLowerS text
  if strContains t "aventurero" then some "Aventureros"
  else if strContains t "conquistador" then some "Conquistadores"
  else if strContains t "guia" || strContains t "guías" || strContains t "mayor" then
    some "Guías Mayores"
  else none

example : detectClubType "Club de AVENTUREROS" = some "Aventureros" := by decide
example : detectClubType "GUÍAS mayores" = some "Guías Mayores" := by decide
example : detectClubType "algo" = none := by decide
example : detectClubType "aventurero conquistador" = some "Aventureros" := by decide

/-! ## Club-label parsing (`LoginFlow._parse_club_text`) -/

/-- The separator `" como "`. -/
def mComo : List Char := " como ".data

/-- The separator `", Club de "`. -/
def mClubDeC : List Char := ", Club de ".data

/-- The substring `"Club de "` tested by the second grammar branch. -/
def mClubDe : List Char := "Club de ".data

/-- The separator `" Club de "` used to split in the second grammar branch. -/
def mSpClubDe : List Char := " Club de ".data

/-- The prefix `"Club "`. -/
def mClubSp : List Char := "Club ".data

/-- Embedding of `LoginFlow._parse_club_text` (login_flow.py lines 308-338).
Returns `(name, club_type, role)`.  The three grammar branches and the
`" como "` role suffix are translated clause by clause; Python
`rsplit(" como ", 1)` / `split(sep, 1)` become `splitLast` / `splitFirst`,
and the `len(parts) > 1` guards become the `none` arms of the matches. -/
def parseClubText (full_text : String) : String × Option String × String :=
  let ft := full_text.data
  let tr :=
    if containsB ft mComo then
      match splitLast mComo ft with
      | some (a, b) => (pyStrip a, pyStrip b)
      | none => (pyStrip ft, "Miembro".data)
    else (ft, "Miembro".data)
  let nc :=
    if containsB tr.1 mClubDeC then
      match splitFirst mClubDeC tr.1 with
      | some (a, b) =>
        let name_part := pyStrip a
        let kind_part := pyStrip b
        let name :=
          if "club ".data.isPrefixOf (pyLower name_part) then pyStrip (name_part.drop 5)
          else name_part
        (name, detectClubType ⟨kind_part⟩)
      | none =>
        let name_part := pyStrip tr.1
        let name :=
          if "club ".data.isPrefixOf (pyLower name_part) then pyStrip (name_part.drop 5)
          else name_part
        (name, detectClubType "")
    else if containsB tr.1 mClubDe then
      match splitFirst mSpClubDe tr.1 with
      | some (a, b) =>
        (pyStrip (replaceAll a mClubSp []), detectClubType ⟨pyStrip b⟩)
      | none =>
        (pyStrip (replaceAll tr.1 mClubSp []), detectClubType "")
    else
      (pyStrip (replaceAll tr.1 mClubSp []), detectClubType ⟨tr.1⟩)
  (⟨nc.1⟩, nc.2, ⟨tr.2⟩)

example :
    parseClubText "Club Peniel, Club de Aventureros como Director" =
      ("Peniel", some "Aventureros", "Director") := by decide
example :
    parseClubText "Club Peniel, Club de Conquistadores" =
      ("Peniel", some "Conquistadores", "Miembro") := by decide

/-! ## Data model (`models/schemas.py`) -/

/-- Embedding of the pydantic model `ClubInfo` (schemas.py): id, name,
optional club type, role, and the original unparsed label text. -/
structure ClubInfo where
  id : Int
  name : String
  club_type : Option String
  role : String
  full_text : Option String
deriving DecidableEq, Repr

/-- Python truthiness of an optional string: `None` and `""` are falsy. -/
def optStrTruthy : Option String → Bool
  | some s => !(s = "")
  | none => false

/-- Python truthiness of an optional integer: `None` and `0` are falsy. -/
def optIntTruthy : Option Int → Bool
  | some n => !(n = 0)
  | none => false

/-- Rendering of an optional string inside a Python f-string:
`None` prints as `"None"`. -/
def optStrRepr : Option String → String
  | some s => s
  | none => "None"

/-- The display string `f"{c.name} ({c.club_type})"` used when enumerating
available clubs (login_flow.py line 211) and in the orchestrator message. -/
def clubDisplay (c : ClubInfo) : String :=
  c.name ++ " (" ++ optStrRepr c.club_type ++ ")"

/-! ## Error taxonomy (`core/exceptions.py`) -/

/-- The `details` dict attached to a `LoginError`
(`AutomationError.__init__`): either absent, the credential-rejection dict
`{"username": ..., "error": ...}`, or the club-not-found dict
`{"requested_type": ..., "requested_name": ..., "available_clubs": ...}`. -/
inductive LoginErrDetails where
  | noDetails : LoginErrDetails
  | credentials (username error_text : String) : LoginErrDetails
  | clubNotFound (requested_type requested_name : String)
      (available_clubs : List String) : LoginErrDetails
deriving DecidableEq, Repr

/-- The typed exceptions of `core/exceptions.py` that the embedded code can
raise: `LoginError`, `NavigationError`, `BrowserError`.  Each carries its
message string (`str(e)` of an `AutomationError` is its message). -/
inductive AutoErr where
  | loginError (msg : String) (details : LoginErrDetails) : AutoErr
  | navigationError (msg : String) : AutoErr
  | browserError (msg : String) : AutoErr
deriving DecidableEq, Repr

/-- `str(e)` for an embedded exception. -/
def autoErrStr : AutoErr → String
  | .loginError m _ => m
  | .navigationError m => m
  | .browserError m => m

/-! ## Browser manager (`services/browser.py`)

State of a `BrowserManager`: whether the Chromium handle `_browser` is set
(it is set by `initialize` and cleared by `close`, so it is non-`None`
exactly while the browser process is running in the manager's lifecycle),
the `_contexts` dict mapping session identifiers to contexts, the set of
contexts whose `close()` has been called, and a counter producing fresh
context identities.  Contexts are represented by `Nat` identities; the
viewport/locale/timezone options passed to `new_context` do not affect the
claims and are not tracked. -/
structure BMState where
  browserRunning : Bool
  contexts : String → Option Nat
  closedCtxs : List Nat
  nextCtx : Nat

/-- Embedding of `BrowserManager.create_context` (browser.py lines
227-253): raise `BrowserError` when `_browser` is unset; otherwise close
any existing context for the identifier, allocate a fresh context, and
store it under the identifier.  (The optional `storage_state` argument
only adds driver options and is not modelled.) -/
def createContext (s : BMState) (id_ : String) : Except AutoErr (Nat × BMState) :=
  if !s.browserRunning then .error (.browserError "Browser not initialized")
  else
    let closed :=
      match s.contexts id_ with
      | some c => c :: s.closedCtxs
      | none => s.closedCtxs
    .ok
      (s.nextCtx,
        { browserRunning := s.browserRunning
          contexts := fun k => if k = id_ then some s.nextCtx else s.contexts k
          closedCtxs := closed
          nextCtx := s.nextCtx + 1 })

/-- Embedding of `BrowserManager.close_context` (browser.py lines 270-283):
when the identifier is present, close its context and delete the entry;
otherwise do nothing.  The function is total: the Python body cannot raise
for an absent identifier (the driver `close()` call is modelled as
non-raising, per the driver abstraction of the spec). -/
def closeContext (s : BMState) (id_ : String) : BMState :=
  match s.contexts id_ with
  | some c =>
    { browserRunning := s.browserRunning
      contexts := fun k => if k = id_ then none else s.contexts k
      closedCtxs := c :: s.closedCtxs
      nextCtx := s.nextCtx }
  | none => s

/-! ## Login flow (`services/login_flow.py`) -/

/-- Embedding of `LoginFlow._find_club_by_type_and_name` (login_flow.py
lines 226-250): first pass requires a truthy `club_type` containing the
requested type and a name containing the requested name (all lowercased);
the second, more lenient pass searches `full_text` (or, when that is falsy,
`f"{club.name} {club.club_type or ''}"`) for both substrings. -/
def clubPrimaryMatch (typeL nameL : String) (c : ClubInfo) : Bool :=
  match c.club_type with
  | some ct =>
    !(ct = "") && strContains (pyLowerS ct) typeL && strContains (pyLowerS c.name) nameL
  | none => false

/-- The raw text scanned by the lenient second pass of
`_find_club_by_type_and_name`: `club.full_text or f"{club.name} {club.club_type or ''}"`. -/
def clubFullText (c : ClubInfo) : String :=
  match c.full_text with
  | some ft => if ft = "" then c.name ++ " " ++ (c.club_type.getD "") else ft
  | none => c.name ++ " " ++ (c.club_type.getD "")

/-- The lenient second-pass predicate of `_find_club_by_type_and_name`. -/
def clubFallbackMatch (typeL nameL : String) (c : ClubInfo) : Bool :=
  strContains (pyLowerS (clubFullText c)) typeL && strContains (pyLowerS (clubFullText c)) nameL

/-- Embedding of `LoginFlow._find_club_by_type_and_name`. -/
def findClubByTypeAndName (clubs : List ClubInfo) (club_type club_name : String) :
    Option ClubInfo :=
  let nameL := pyLowerS club_name
  let typeL := pyLowerS club_type
  match clubs.find? (fun c => clubPrimaryMatch typeL nameL c) with
  | some c => some c
  | none => clubs.find? (fun c => clubFallbackMatch typeL nameL c)

/-- Exceptions propagating out of the `try` body of `LoginFlow.execute`,
before classification by its `except` clauses: a `LoginError` raised inside
the body, a `PlaywrightTimeout`, or any other exception. -/
inductive RawErr where
  | login (msg : String) (details : LoginErrDetails) : RawErr
  | timeout (msg : String) : RawErr
  | exc (msg : String) : RawErr
deriving DecidableEq, Repr

/-- Embedding of `LoginFlow._handle_club_selection` (login_flow.py lines
180-224), given the current page URL, the configured club-selection path,
and the clubs that `_extract_clubs` parses from the page (that helper
swallows all its exceptions and returns a list).  `_select_club` also
swallows its exceptions, so selection itself cannot fail; the only raise is
the club-not-found `LoginError` (lines 212-219), which is **not** preceded
by any context cleanup. -/
def handleClubSelection (url selectPath : String) (clubs : List ClubInfo)
    (club_id : Option Int) (club_type club_name : Option String) :
    Except RawErr (List ClubInfo × Option ClubInfo) :=
  if !strContains url selectPath then .ok ([], none)
  else if optIntTruthy club_id then
    .ok (clubs, clubs.find? (fun c => c.id = club_id.getD 0))
  else if optStrTruthy club_type && optStrTruthy club_name then
    let tp := club_type.getD ""
    let nm := club_name.getD ""
    match findClubByTypeAndName clubs tp nm with
    | some c => .ok (clubs, some c)
    | none =>
      .error (.login ("Club not found: " ++ nm ++ " (" ++ tp ++ ")")
        (.clubNotFound tp nm (clubs.map clubDisplay)))
  else
    match clubs with
    | [] => .ok ([], none)
    | c :: _ => .ok (clubs, some c)

/-- Outcome of one driver (Playwright) call: success, a
`PlaywrightTimeout`, or some other exception with message. -/
inductive StepOut where
  | ok : StepOut
  | timeout (msg : String) : StepOut
  | exc (msg : String) : StepOut
deriving DecidableEq, Repr

/-- Lift a driver outcome into the `try` body of `LoginFlow.execute`. -/
def stepCheck : StepOut → Except RawErr Unit
  | .ok => .ok ()
  | .timeout m => .error (.timeout m)
  | .exc m => .error (.exc m)

/-- Environment describing one run of `LoginFlow.execute`: the outcome of
every driver call it performs, the URL the page reports after the
credential submission settles, the error text `_get_error_message` would
return (that helper swallows its exceptions and always returns a string),
the clubs `_extract_clubs` would parse, and the configured
`CLUB_VIRTUAL_SELECT_CLUB_PATH`. -/
structure LoginEnv where
  newPage : StepOut
  goto : StepOut
  fillUser : StepOut
  fillPass : StepOut
  clickSubmit : StepOut
  waitAfterSubmit : StepOut
  urlAfterLogin : String
  errorText : String
  clubs : List ClubInfo
  waitDashboard : StepOut
  selectPath : String

/-- Result of a successful `LoginFlow.execute`, mirroring the `LoginResult`
dataclass (the live `page` handle is driver state and is not represented). -/
structure MLoginResult where
  success : Bool
  session_id : String
  clubs : List ClubInfo
  selected_club : Option ClubInfo
  error : Option String
deriving DecidableEq, Repr

/-- The `try` body of `LoginFlow.execute` (login_flow.py lines 107-164)
after the context has been created, threading the browser-manager state:
new page, navigation, form fill, submit, settle, credential-error check
(which closes the context before raising its `LoginError`, line 137), club
selection, final settle. -/
def executeLoginBody (bm : BMState) (env : LoginEnv) (session_id username : String)
    (club_id : Option Int) (club_type club_name : Option String) :
    Except RawErr MLoginResult × BMState :=
  match stepCheck env.newPage with
  | .error e => (.error e, bm)
  | .ok _ =>
  match stepCheck env.goto with
  | .error e => (.error e, bm)
  | .ok _ =>
  match stepCheck env.fillUser with
  | .error e => (.error e, bm)
  | .ok _ =>
  match stepCheck env.fillPass with
  | .error e => (.error e, bm)
  | .ok _ =>
  match stepCheck env.clickSubmit with
  | .error e => (.error e, bm)
  | .ok _ =>
  match stepCheck env.waitAfterSubmit with
  | .error e => (.error e, bm)
  | .ok _ =>
  if strContains env.urlAfterLogin "login_error" then
    (.error (.login ("Login failed: " ++ env.errorText)
        (.credentials username env.errorText)),
      closeContext bm session_id)
  else
    match handleClubSelection env.urlAfterLogin env.selectPath env.clubs
        club_id club_type club_name with
    | .error e => (.error e, bm)
    | .ok (clubs, selected) =>
      match stepCheck env.waitDashboard with
      | .error e => (.error e, bm)
      | .ok _ =>
        (.ok { success := true, session_id := session_id, clubs := clubs,
               selected_club := selected, error := none }, bm)

/-- Embedding of `LoginFlow.execute` (login_flow.py lines 80-174).
`session_id` stands for the generated UUID.  The `except` clauses: a
`LoginError` is re-raised as is (no cleanup at this level); a
`PlaywrightTimeout` closes the context and becomes a `NavigationError`;
any other exception closes the context and becomes a `LoginError`.  A
`BrowserError` from `create_context` falls into the generic clause. -/
def executeLogin (bm : BMState) (env : LoginEnv) (session_id username : String)
    (club_id : Option Int) (club_type club_name : Option String) :
    Except AutoErr MLoginResult × BMState :=
  match createContext bm session_id with
  | .error e =>
    (.error (.loginError ("Login failed: " ++ autoErrStr e) .noDetails),
      closeContext bm session_id)
  | .ok (_, bm1) =>
    match executeLoginBody bm1 env session_id username club_id club_type club_name with
    | (.ok r, bm2) => (.ok r, bm2)
    | (.error (.login m d), bm2) => (.error (.loginError m d), bm2)
    | (.error (.timeout m), bm2) =>
      (.error (.navigationError ("Timeout during login: " ++ m)), closeContext bm2 session_id)
    | (.error (.exc m), bm2) =>
      (.error (.loginError ("Login failed: " ++ m) .noDetails), closeContext bm2 session_id)

/-! ## Tasks extractor (`services/extractors/tasks.py`) -/

/-- One element of the list produced by the page script of
`TasksExtractor._extract_active_classes`; the script always sets every
key, `completion_percentage` via `parseInt` over a regex match. -/
structure ActiveClassInfo where
  name : String
  completion_percentage : Int
  status : Option String
  is_ready_for_investiture : Bool
  image_url : Option String
deriving DecidableEq, Repr

/-- Environment for one run of `TasksExtractor.extract`: the outcomes of
the navigation, the selector wait, and the page evaluation (the latter
yielding the parsed class list on success).  `TasksExtractor` treats every
exception alike, so outcomes carry only the message. -/
structure TasksEnv where
  goto : Except String Unit
  waitSelector : Except String Unit
  evalClasses : Except String (List ActiveClassInfo)

/-- The dict returned by `TasksExtractor.extract`.  The success path sets
`ready_for_investiture_count` and no `error` key; the failure path (lines
103-110) sets `error` and omits `ready_for_investiture_count`, which the
two `Option` fields mirror. -/
structure TasksData where
  active_classes : List ActiveClassInfo
  total_classes : Nat
  overall_completion : Option ℚ
  ready_for_investiture_count : Option Nat
  error : Option String
deriving DecidableEq, Repr

/-- The failure dict of `TasksExtractor.extract` (tasks.py lines 105-110). -/
def tasksFailure (msg : String) : TasksData :=
  { active_classes := [], total_classes := 0, overall_completion := none,
    ready_for_investiture_count := none, error := some msg }

/-- Embedding of `TasksExtractor.extract` (tasks.py lines 56-110).  Every
exception from the three driver steps is caught by the enclosing
`try`/`except` and turned into the failure dict, so the function is total:
the Python method never propagates an exception.  On success,
`overall_completion` is `sum / len` over the parsed percentages when the
class list is non-empty (Python float division, modelled exactly over ℚ)
and `None` otherwise. -/
def tasksExtract (env : TasksEnv) : TasksData :=
  match env.goto with
  | .error m => tasksFailure m
  | .ok _ =>
  match env.waitSelector with
  | .error m => tasksFailure m
  | .ok _ =>
  match env.evalClasses with
  | .error m => tasksFailure m
  | .ok classes =>
    let total : Int := (classes.map (fun c => c.completion_percentage)).sum
    let overall : Option ℚ :=
      if classes.isEmpty then none else some ((total : ℚ) / (classes.length : ℚ))
    let ready := (classes.filter (fun c => c.is_ready_for_investiture)).length
    { active_classes := classes, total_classes := classes.length,
      overall_completion := overall, ready_for_investiture_count := some ready,
      error := none }

/-- The arithmetic mean, as the specification words it: `(p1 + ... + pN) / N`. -/
def arithMean (l : List ℚ) : ℚ := l.sum / (l.length : ℚ)

/-! ## Orchestrator (`services/orchestrator.py`) -/

/-- Outcome of `ExtractorRegistry.get(name)` followed by
`extractor.extract(page, base_url)` for one requested name: a data value,
the `ValueError` message for an unknown name, or an exception raised by
the extractor itself.  Generic in the payload type, as the Python data is
untyped dicts. -/
inductive ExtractorOutcome (α : Type) where
  | ok (data : α) : ExtractorOutcome α
  | unknown (msg : String) : ExtractorOutcome α
  | raised (msg : String) : ExtractorOutcome α

/-- Python dict lookup `d.get(k)` on an insertion-ordered association
list. -/
def dictGet {α : Type} (m : List (String × α)) (k : String) : Option α :=
  match m with
  | [] => none
  | q :: t => if q.1 = k then some q.2 else dictGet t k

/-- Python dict assignment `d[k] = v` on an insertion-ordered association
list: overwrite in place when the key exists, else append. -/
def dictSet {α : Type} (m : List (String × α)) (k : String) (v : α) :
    List (String × α) :=
  if (dictGet m k).isSome then m.map (fun p => if p.1 = k then (k, v) else p)
  else m ++ [(k, v)]

/-- One iteration of the per-extractor loop of
`ExtractOrchestrator.extract` (orchestrator.py lines 158-178): a
successful extractor stores its data under its name, an unknown name
appends the `ValueError` text to `errors`, a raising extractor appends
`f"{name}: {e}"`. -/
def runStep {α : Type} (run : String → ExtractorOutcome α)
    (acc : List (String × α) × List String) (n : String) :
    List (String × α) × List String :=
  match run n with
  | .ok d => (dictSet acc.1 n d, acc.2)
  | .unknown m => (acc.1, acc.2 ++ [m])
  | .raised m => (acc.1, acc.2 ++ [n ++ ": " ++ m])

/-- The per-extractor loop of `ExtractOrchestrator.extract`: fold
`runStep` over the requested names; a failing extractor never aborts the
remaining names. -/
def runExtractors {α : Type} (run : String → ExtractorOutcome α)
    (include_ : List String) : List (String × α) × List String :=
  include_.foldl (runStep run) ([], [])

/-- Embedding of `ExtractOrchestrator._build_message` (orchestrator.py
lines 237-255). -/
def buildMessage {α : Type} (selected : Option ClubInfo)
    (data : List (String × α)) (errors : List String) : String :=
  let parts : List String :=
    (match selected with
     | some c => ["Club: " ++ clubDisplay c]
     | none => []) ++
    (if data.isEmpty then [] else
      ["Extracted: " ++ String.intercalate ", " (data.map (fun p => p.1))]) ++
    (if errors.isEmpty then [] else ["Errors: " ++ toString errors.length])
  if parts.isEmpty then "Extraction completed" else String.intercalate " | " parts

/-- The club dict built by `ExtractOrchestrator._club_to_dict`. -/
structure ClubDict where
  id : Int
  name : String
  club_type : Option String
  role : String
deriving DecidableEq, Repr

/-- Embedding of `ExtractOrchestrator._club_to_dict`. -/
def clubToDict (c : ClubInfo) : ClubDict :=
  { id := c.id, name := c.name, club_type := c.club_type, role := c.role }

/-- The `ExtractResponse` produced by `ExtractOrchestrator.extract`.
`extractedData` records the `extracted_data` dict from which the keyed
fields `profile`/`tasks`/`specialties` are read with `.get`, so that
statements can speak about an arbitrary extractor key; the keyed fields
are derived from it in `orchExtract` exactly as in the source. -/
structure MExtractResponse (α : Type) where
  success : Bool
  message : String
  session_id : Option String
  loginClubs : List ClubDict
  selectedClub : Option ClubDict
  profile : Option α
  tasks : Option α
  specialties : Option α
  screenshot_path : Option String
  errors : Option (List String)
  extractedData : List (String × α)

/-- Environment for one run of `ExtractOrchestrator.extract`: the names the
registry holds, the outcome of `LoginFlow.execute`, the behaviour of each
requested extractor, and the screenshot step (`SCREENSHOTS_ENABLED`
setting plus the outcome of `_take_screenshot`, whose exception would
escape to the orchestrator's outer `except`). -/
structure OrchEnv (α : Type) where
  registryNames : List String
  login : Except AutoErr MLoginResult
  run : String → ExtractorOutcome α
  screenshotsEnabled : Bool
  screenshot : Except String String

/-- The failure response of the outer `except` clause (orchestrator.py
lines 214-221). -/
def orchFailureResponse {α : Type} (msg : String) (session_id : Option String) :
    MExtractResponse α :=
  { success := false, message := "Error: " ++ msg, session_id := session_id,
    loginClubs := [], selectedClub := none, profile := none, tasks := none,
    specialties := none, screenshot_path := none, errors := some [msg],
    extractedData := [] }

/-- Embedding of `ExtractOrchestrator.extract` (orchestrator.py lines
91-226).  The function is total: every exception of the `try` body (login,
screenshot) is caught by the outer `except`, which returns the failure
response — the method never raises to its caller.  `include?` is the
`include` argument; a `None` or empty list falls back to every registered
extractor.  The `finally` clause releases the browser context; it does not
affect the returned response and the claims below are about the response,
so the browser-manager state is not threaded here. -/
def orchExtract {α : Type} (env : OrchEnv α) (include? : Option (List String)) :
    MExtractResponse α :=
  let include_ :=
    match include? with
    | none => env.registryNames
    | some [] => env.registryNames
    | some l => l
  match env.login with
  | .error e => orchFailureResponse (autoErrStr e) none
  | .ok lr =>
    let de := runExtractors env.run include_
    match (if env.screenshotsEnabled then env.screenshot.map some else .ok none :
        Except String (Option String)) with
    | .error m => orchFailureResponse m (some lr.session_id)
    | .ok shot =>
      { success := true,
        message := buildMessage lr.selected_club de.1 de.2,
        session_id := some lr.session_id,
        loginClubs := lr.clubs.map clubToDict,
        selectedClub := lr.selected_club.map clubToDict,
        profile := dictGet de.1 "profile",
        tasks := dictGet de.1 "tasks",
        specialties := dictGet de.1 "specialties",
        screenshot_path := shot,
        errors := if de.2.isEmpty then none else some de.2,
        extractedData := de.1 }

/-! ## Example states used by witnesses -/

/-- A browser-manager state with a running browser and one live context. -/
def bmEx : BMState :=
  { browserRunning := true
    contexts := fun k => if k = "a" then some 5 else none
    closedCtxs := []
    nextCtx := 6 }

/-- A browser-manager state whose browser is not running. -/
def bmExOff : BMState :=
  { browserRunning := false, contexts := fun _ => none, closedCtxs := [], nextCtx := 0 }

/-! ## Claim C9 -/

/-- **C9.** For every session identifier, `closeContext` is idempotent:
after one call the identifier is absent from the session map, a second
call returns the same state unchanged, and calling it on an identifier for
which no context exists is a no-op.  The Python method never raises, which
the model reflects by `closeContext` being a total function into
`BMState`. -/
theorem closeContext_idempotent (s : BMState) (id_ : String) :
    (closeContext s id_).contexts id_ = none ∧
    closeContext (closeContext s id_) id_ = closeContext s id_ ∧
    (s.contexts id_ = none → closeContext s id_ = s) := by
  have habs : ∀ t : BMState, (closeContext t id_).contexts id_ = none := by
    intro t
    cases h : t.contexts id_ <;> simp [closeContext, h]
  have hnoop : ∀ t : BMState, t.contexts id_ = none → closeContext t id_ = t := by
    intro t h
    simp [closeContext, h]
  exact ⟨habs s, hnoop _ (habs s), hnoop s⟩

/-- Witness for C9 at a concrete state: the identifier `"b"` was never
created, and closing it is a no-op. -/
theorem closeContext_idempotent_witness :
    bmEx.contexts "b" = none ∧ closeContext bmEx "b" = bmEx :=
  ⟨rfl, (closeContext_idempotent bmEx "b").2.2 rfl⟩

/-! ## Claim C8 -/

/-- **C8.** `create_context` keeps at most one live context per session
identifier: when the identifier already has a context, that context is
closed (recorded in `closedCtxs`) and the map entry is replaced by the
fresh context; and the call fails with the `BrowserError` (the spec's
`BrowserNotReady`) whenever `_browser` is unset, i.e. the browser process
is not running within the manager's lifecycle. -/
theorem createContext_spec (s : BMState) (id_ : String) :
    (s.browserRunning = false →
      createContext s id_ = .error (.browserError "Browser not initialized")) ∧
    (∀ c, s.browserRunning = true → s.contexts id_ = some c →
      ∃ n s2, createContext s id_ = .ok (n, s2) ∧ c ∈ s2.closedCtxs ∧
        s2.contexts id_ = some n) := by
  constructor
  · intro h
    simp [createContext, h]
  · intro c hb hc
    refine ⟨s.nextCtx,
      { browserRunning := s.browserRunning
        contexts := fun k => if k = id_ then some s.nextCtx else s.contexts k
        closedCtxs := c :: s.closedCtxs
        nextCtx := s.nextCtx + 1 }, ?_, ?_, ?_⟩
    · simp [createContext, hb, hc]
    · exact List.mem_cons_self _ _
    · simp

/-- Witness for C8: with the browser running and identifier `"a"` bound to
context `5`, recreating closes context `5`; with the browser down, the
call fails. -/
theorem createContext_spec_witness :
    (bmEx.browserRunning = true ∧ bmEx.contexts "a" = some 5 ∧
      ∃ n s2, createContext bmEx "a" = .ok (n, s2) ∧ 5 ∈ s2.closedCtxs ∧
        s2.contexts "a" = some n) ∧
    (bmExOff.browserRunning = false ∧
      createContext bmExOff "a" = .error (.browserError "Browser not initialized")) :=
  ⟨⟨rfl, rfl, (createContext_spec bmEx "a").2 5 rfl rfl⟩,
   ⟨rfl, (createContext_spec bmExOff "a").1 rfl⟩⟩

/-! ## Claim C7 -/

/-- **C7 counterexample.** The claim states that any string containing
`"conquistador"` normalizes to `"Conquistadores"`; but the code tests
`"aventurero"` first, so a string containing both normalizes to
`"Aventureros"`. -/
theorem detectClubType_conquistador_counterexample :
    strContains (pyLowerS "aventurero conquistador") "conquistador" = true ∧
    detectClubType "aventurero conquistador" ≠ some "Conquistadores" := by decide

/-- **C7 amended.** Club-type normalization applies its three
case-insensitive substring tests in priority order: a string containing
`"aventurero"` yields `"Aventureros"`; otherwise one containing
`"conquistador"` yields `"Conquistadores"`; otherwise one containing
`"guia"`, `"guías"` or `"mayor"` yields `"Guías Mayores"`; any other
string yields `none`.  The function is total, so it never raises. -/
theorem detectClubType_priority (s : String) :
    (strContains (pyLowerS s) "aventurero" = true →
      detectClubType s = some "Aventureros") ∧
    (strContains (pyLowerS s) "aventurero" = false →
      strContains (pyLowerS s) "conquistador" = true →
      detectClubType s = some "Conquistadores") ∧
    (strContains (pyLowerS s) "aventurero" = false →
      strContains (pyLowerS s) "conquistador" = false →
      (strContains (pyLowerS s) "guia" || strContains (pyLowerS s) "guías" ||
        strContains (pyLowerS s) "mayor") = true →
      detectClubType s = some "Guías Mayores") ∧
    (strContains (pyLowerS s) "aventurero" = false →
      strContains (pyLowerS s) "conquistador" = false →
      (strContains (pyLowerS s) "guia" || strContains (pyLowerS s) "guías" ||
        strContains (pyLowerS s) "mayor") = false →
      detectClubType s = none) := by
  refine ⟨?_, ?_, ?_, ?_⟩ <;> intros <;> simp_all [detectClubType]

/-- Witness for C7 (amended), exercising all four branches on concrete
inputs. -/
theorem detectClubType_priority_witness :
    (strContains (pyLowerS "AVENTURERO x") "aventurero" = true ∧
      detectClubType "AVENTURERO x" = some "Aventureros") ∧
    (strContains (pyLowerS "Conquistadores") "aventurero" = false ∧
      strContains (pyLowerS "Conquistadores") "conquistador" = true ∧
      detectClubType "Conquistadores" = some "Conquistadores") ∧
    (detectClubType "GUÍAS" = some "Guías Mayores") ∧
    (detectClubType "nada" = none) :=
  ⟨⟨by decide, (detectClubType_priority "AVENTURERO x").1 (by decide)⟩,
   ⟨by decide, by decide,
     (detectClubType_priority "Conquistadores").2.1 (by decide) (by decide)⟩,
   (detectClubType_priority "GUÍAS").2.2.1 (by decide) (by decide) (by decide),
   (detectClubType_priority "nada").2.2.2 (by decide) (by decide) (by decide)⟩

/-! ## Claim C5 -/

/-- **C5.** When the tasks page yields `N` parsed courses with completion
percentages `[p1..pN]`, `overall_completion` is their arithmetic mean
`(p1 + ... + pN) / N`; when it yields zero courses, `overall_completion`
is absent (`none`), not zero. -/
theorem tasks_overall_completion_mean (env : TasksEnv)
    (classes : List ActiveClassInfo)
    (hg : env.goto = .ok ()) (hw : env.waitSelector = .ok ())
    (he : env.evalClasses = .ok classes) :
    (classes = [] → (tasksExtract env).overall_completion = none) ∧
    (classes ≠ [] →
      (tasksExtract env).overall_completion =
        some (arithMean (classes.map (fun c => (c.completion_percentage : ℚ))))) := by
  have hsum : ∀ l : List ActiveClassInfo,
      (((l.map (fun c => c.completion_percentage)).sum : Int) : ℚ) =
        (l.map (fun c => (c.completion_percentage : ℚ))).sum := by
    intro l
    induction l with
    | nil => simp
    | cons a t ih => simp only [List.map_cons, List.sum_cons, Int.cast_add, ih]
  constructor
  · intro h
    subst h
    simp [tasksExtract, hg, hw, he]
  · intro h
    have hlen : classes.isEmpty = false := by
      cases classes with
      | nil => exact absurd rfl h
      | cons a t => rfl
    simp only [tasksExtract, hg, hw, he, hlen, Bool.false_eq_true, if_false]
    rw [arithMean, List.length_map, ← hsum classes]

/-- Tasks-extractor environment for the C5 witness: two parsed courses. -/
def tEnvTwo : TasksEnv :=
  { goto := .ok (), waitSelector := .ok (),
    evalClasses := .ok [{ name := "Abejas", completion_percentage := 50,
                          status := none, is_ready_for_investiture := false,
                          image_url := none },
                        { name := "Amigo", completion_percentage := 100,
                          status := none, is_ready_for_investiture := false,
                          image_url := none }] }

/-- Tasks-extractor environment for the C5 witness: zero parsed courses. -/
def tEnvZero : TasksEnv :=
  { goto := .ok (), waitSelector := .ok (), evalClasses := .ok [] }

/-- Witness for C5: two courses at 50% and 100% average to 75%, and the
empty list yields an absent mean. -/
theorem tasks_overall_completion_mean_witness :
    (tasksExtract tEnvTwo).overall_completion = some (arithMean [(50 : ℚ), 100]) ∧
    (tasksExtract tEnvZero).overall_completion = none :=
  ⟨(tasks_overall_completion_mean tEnvTwo _ rfl rfl rfl).2 (by decide),
   (tasks_overall_completion_mean tEnvZero ([] : List ActiveClassInfo) rfl rfl rfl).1 rfl⟩

/-! ## Claim C4 -/

/-- **C4.** `ExtractOrchestrator.extract` never raises: the embedding is a
total function into `MExtractResponse`, every exception of the `try` body
being caught by the outer `except`.  Whenever the returned object has
`success = false`, its error list is present and non-empty; and whenever
login itself raises, the result is such a failure object. -/
theorem orchExtract_never_raises {α : Type} (env : OrchEnv α)
    (include? : Option (List String)) :
    ((orchExtract env include?).success = false →
      ∃ l, (orchExtract env include?).errors = some l ∧ l ≠ []) ∧
    (∀ e, env.login = .error e → (orchExtract env include?).success = false) := by
  constructor
  · intro h
    cases hl : env.login with
    | error e =>
      refine ⟨[autoErrStr e], ?_, by simp⟩
      simp [orchExtract, hl, orchFailureResponse]
    | ok lr =>
      rcases hs : (if env.screenshotsEnabled then env.screenshot.map some
          else .ok none : Except String (Option String)) with m | shot
      · refine ⟨[m], ?_, by simp⟩
        simp [orchExtract, hl, hs, orchFailureResponse]
      · exfalso
        have : (orchExtract env include?).success = true := by
          simp [orchExtract, hl, hs]
        rw [this] at h
        exact Bool.true_eq_false.mp h
  · intro e hl
    simp [orchExtract, hl, orchFailureResponse]

/-- Orchestrator environment for the C4 witness: login raises. -/
def oEnvFail : OrchEnv Unit :=
  { registryNames := ["profile", "tasks"],
    login := .error (.loginError "Login failed: bad credentials" .noDetails),
    run := fun _ => .raised "unused",
    screenshotsEnabled := false,
    screenshot := .ok "p" }

/-- Witness for C4: when login raises a `LoginError`, the orchestrator
still returns a response, with `success = false` and one error entry. -/
theorem orchExtract_never_raises_witness :
    oEnvFail.login = .error (.loginError "Login failed: bad credentials" .noDetails) ∧
    (orchExtract oEnvFail none).success = false :=
  ⟨rfl,
   (orchExtract_never_raises oEnvFail none).2
     (.loginError "Login failed: bad credentials" .noDetails) rfl⟩

/-! ## Claim C1 -/

/-- Browser-manager state for the C1 run: browser running, no context yet. -/
def bmC1 : BMState :=
  { browserRunning := true, contexts := fun _ => none, closedCtxs := [], nextCtx := 0 }

/-- Environment for the C1 run: every driver step succeeds, the
post-submission URL is the club-selection page, and one club is parsed,
not matching the requested type/name pair. -/
def envC1 : LoginEnv :=
  { newPage := .ok, goto := .ok, fillUser := .ok, fillPass := .ok,
    clickSubmit := .ok, waitAfterSubmit := .ok,
    urlAfterLogin := "https://clubvirtual-asd.org.mx/valida/selecciona-club",
    errorText := "Invalid credentials",
    clubs := [{ id := 1, name := "Alpha", club_type := some "Aventureros",
                role := "Miembro",
                full_text := some "Club Alpha, Club de Aventureros como Miembro" }],
    waitDashboard := .ok,
    selectPath := "/valida/selecciona-club" }

/-- **C1 (code bug).** The claim says every failing `LoginFlow.execute`
closes the partially created context before the error propagates — in
particular the club-not-found `LoginError`.  But that `LoginError`
(raised in `_handle_club_selection`, lines 212-219, with no prior
cleanup) is re-raised by the bare `except LoginError: raise` clause (line
166-167) without closing the context, so the session leaks: here the run
fails with the club-not-found error, yet the session map still holds the
context.  The timeout and generic clauses (lines 168-174) do clean up; the
club-not-found path contradicts the cleanup the code performs everywhere
else and the spec's stated policy. -/
theorem login_leak_on_club_not_found :
    (executeLogin bmC1 envC1 "sid" "user" none (some "Conquistadores")
        (some "Beta")).1 =
      .error (.loginError "Club not found: Beta (Conquistadores)"
        (.clubNotFound "Conquistadores" "Beta" ["Alpha (Aventureros)"])) ∧
    (executeLogin bmC1 envC1 "sid" "user" none (some "Conquistadores")
        (some "Beta")).2.contexts "sid" = some 0 := by
  constructor
  · rfl
  · rfl

/-! ## Dict and extractor-loop lemmas -/

/-- Unfolding equation for `dictGet` on a cons cell. -/
theorem dictGet_cons {α : Type} (q : String × α) (t : List (String × α)) (k : String) :
    dictGet (q :: t) k = if q.1 = k then some q.2 else dictGet t k := rfl

/-- Overwriting an existing binding makes lookup return the new value. -/
theorem dictGet_map_overwrite {α : Type} (k : String) (v : α) :
    ∀ m : List (String × α), (dictGet m k).isSome = true →
      dictGet (m.map (fun p => if p.1 = k then (k, v) else p)) k = some v := by
  intro m
  induction m with
  | nil => intro h; simp [dictGet] at h
  | cons p t ih =>
    intro h
    rw [List.map_cons]
    by_cases hk : p.1 = k
    · rw [if_pos hk, dictGet_cons, if_pos rfl]
    · rw [if_neg hk, dictGet_cons, if_neg hk]
      rw [dictGet_cons, if_neg hk] at h
      exact ih h

/-- Appending a fresh binding makes lookup return it. -/
theorem dictGet_append_fresh {α : Type} (k : String) (v : α) :
    ∀ m : List (String × α), dictGet m k = none →
      dictGet (m ++ [(k, v)]) k = some v := by
  intro m
  induction m with
  | nil => intro _; simp [dictGet]
  | cons p t ih =>
    intro h
    by_cases hk : p.1 = k
    · rw [dictGet_cons, if_pos hk] at h
      exact absurd h (by simp)
    · rw [dictGet_cons, if_neg hk] at h
      rw [List.cons_append, dictGet_cons, if_neg hk]
      exact ih h

/-- `dictSet` followed by lookup of the same key yields the new value. -/
theorem dictGet_dictSet_self {α : Type} (m : List (String × α)) (k : String) (v : α) :
    dictGet (dictSet m k v) k = some v := by
  unfold dictSet
  by_cases hs : (dictGet m k).isSome = true
  · rw [if_pos hs]
    exact dictGet_map_overwrite k v m hs
  · have hn : dictGet m k = none := by
      cases h : dictGet m k with
      | none => rfl
      | some d => rw [h] at hs; simp at hs
    rw [if_neg hs]
    exact dictGet_append_fresh k v m hn

/-- Overwriting bindings of another key does not disturb lookup. -/
theorem dictGet_map_ne {α : Type} (k k2 : String) (v : α) (hne : ¬k = k2) :
    ∀ m : List (String × α),
      dictGet (m.map (fun p => if p.1 = k2 then (k2, v) else p)) k = dictGet m k := by
  intro m
  induction m with
  | nil => rfl
  | cons p t ih =>
    rw [List.map_cons]
    by_cases hp : p.1 = k2
    · have hpk : ¬p.1 = k := by rw [hp]; exact fun h => hne h.symm
      have hk2k : ¬k2 = k := fun h => hne h.symm
      rw [if_pos hp, dictGet_cons, dictGet_cons, if_neg hpk]
      simpa [hk2k] using ih
    · rw [if_neg hp, dictGet_cons, dictGet_cons]
      by_cases hpk : p.1 = k
      · rw [if_pos hpk, if_pos hpk]
      · rw [if_neg hpk, if_neg hpk, ih]

/-- Appending a binding of another key does not disturb lookup. -/
theorem dictGet_append_ne {α : Type} (k k2 : String) (v : α) (hne : ¬k = k2) :
    ∀ m : List (String × α), dictGet (m ++ [(k2, v)]) k = dictGet m k := by
  intro m
  induction m with
  | nil =>
    have hk2k : ¬k2 = k := fun h => hne h.symm
    simp [dictGet, hk2k]
  | cons p t ih =>
    rw [List.cons_append, dictGet_cons, dictGet_cons]
    by_cases hpk : p.1 = k
    · rw [if_pos hpk, if_pos hpk]
    · rw [if_neg hpk, if_neg hpk, ih]

/-- `dictSet` of a different key does not disturb lookup. -/
theorem dictGet_dictSet_ne {α : Type} (m : List (String × α)) (k k2 : String) (v : α)
    (hne : ¬k = k2) : dictGet (dictSet m k2 v) k = dictGet m k := by
  unfold dictSet
  split
  · exact dictGet_map_ne k k2 v hne m
  · exact dictGet_append_ne k k2 v hne m

/-- After the extractor loop, a name that ran successfully is bound to its
data in `extracted_data`, whatever the other extractors did. -/
theorem runExtractors_dictGet {α : Type} (run : String → ExtractorOutcome α)
    (A : String) (dA : α) (hA : run A = .ok dA) :
    ∀ (include_ : List String) (acc : List (String × α) × List String),
      (A ∈ include_ ∨ dictGet acc.1 A = some dA) →
      dictGet (include_.foldl (runStep run) acc).1 A = some dA := by
  intro include_
  induction include_ with
  | nil =>
    intro acc h
    cases h with
    | inl h => exact absurd h (List.not_mem_nil A)
    | inr h => simpa using h
  | cons n ns ih =>
    intro acc h
    rw [List.foldl_cons]
    apply ih
    cases h with
    | inl hmem =>
      rcases List.mem_cons.mp hmem with rfl | hns
      · right
        simp [runStep, hA, dictGet_dictSet_self]
      · left
        exact hns
    | inr hacc =>
      right
      cases hrn : run n with
      | ok d =>
        by_cases hn : A = n
        · subst hn
          rw [hA] at hrn
          cases hrn
          simp [runStep, hA, dictGet_dictSet_self]
        · simpa [runStep, hrn, dictGet_dictSet_ne acc.1 A n d hn] using hacc
      | unknown m => simpa [runStep, hrn] using hacc
      | raised m => simpa [runStep, hrn] using hacc

/-- The error entry one extractor name contributes to the orchestrator's
error list: nothing on success, the `ValueError` text for an unknown name,
`f"{name}: {e}"` for a raising extractor. -/
def extractorErrorEntry {α : Type} (run : String → ExtractorOutcome α)
    (n : String) : Option String :=
  match run n with
  | .ok _ => none
  | .unknown m => some m
  | .raised m => some (n ++ ": " ++ m)

/-- The error list accumulated by the extractor loop. -/
theorem runExtractors_errors_aux {α : Type} (run : String → ExtractorOutcome α) :
    ∀ (include_ : List String) (acc : List (String × α) × List String),
      (include_.foldl (runStep run) acc).2 =
        acc.2 ++ include_.filterMap (extractorErrorEntry run) := by
  intro include_
  induction include_ with
  | nil => intro acc; simp
  | cons n ns ih =>
    intro acc
    rw [List.foldl_cons, ih]
    cases hrn : run n with
    | ok d => simp [runStep, hrn, extractorErrorEntry, List.filterMap_cons]
    | unknown m => simp [runStep, hrn, extractorErrorEntry, List.filterMap_cons]
    | raised m => simp [runStep, hrn, extractorErrorEntry, List.filterMap_cons]

/-- The error list of the extractor loop, entry by entry. -/
theorem runExtractors_errors {α : Type} (run : String → ExtractorOutcome α)
    (include_ : List String) :
    (runExtractors run include_).2 = include_.filterMap (extractorErrorEntry run) := by
  simpa [runExtractors] using runExtractors_errors_aux run include_ ([], [])

/-- Number of occurrences of a name in a list of names. -/
def countOcc (k : String) : List String → Nat
  | [] => 0
  | n :: t => (if n = k then 1 else 0) + countOcc k t

/-- A name with zero occurrences is not a member. -/
theorem countOcc_eq_zero (k : String) :
    ∀ l : List String, countOcc k l = 0 → ¬k ∈ l := by
  intro l
  induction l with
  | nil => intro _ h; exact List.not_mem_nil k h
  | cons n t ih =>
    intro h hmem
    by_cases hn : n = k
    · simp [countOcc, hn] at h
    · rcases List.mem_cons.mp hmem with rfl | ht
      · exact hn rfl
      · exact ih (by simpa [countOcc, hn] using h) ht

/-- When exactly one requested name (`B`, which raises) contributes an
error entry, the error list is that single entry. -/
theorem filterMap_errorEntry_singleton {α : Type}
    (run : String → ExtractorOutcome α) (B mB : String)
    (hB : run B = .raised mB) :
    ∀ include_ : List String, countOcc B include_ = 1 →
      (∀ n ∈ include_, ¬n = B → extractorErrorEntry run n = none) →
      include_.filterMap (extractorErrorEntry run) = [B ++ ": " ++ mB] := by
  intro include_
  induction include_ with
  | nil => intro h _; simp [countOcc] at h
  | cons n ns ih =>
    intro hc hothers
    by_cases hn : n = B
    · subst hn
      have hz : countOcc n ns = 0 := by simpa [countOcc] using hc
      have hnone : ∀ x ∈ ns, extractorErrorEntry run x = none := by
        intro x hx
        by_cases hxB : x = n
        · subst hxB
          exact absurd hx (countOcc_eq_zero x ns hz)
        · exact hothers x (List.mem_cons_of_mem _ hx) hxB
      rw [List.filterMap_cons]
      have hent : extractorErrorEntry run n = some (n ++ ": " ++ mB) := by
        simp [extractorErrorEntry, hB]
      rw [hent, List.filterMap_eq_nil_iff.mpr hnone]
    · have hent : extractorErrorEntry run n = none :=
        hothers n (List.mem_cons_self n ns) hn
      have hc2 : countOcc B ns = 1 := by simpa [countOcc, hn] using hc
      rw [List.filterMap_cons, hent]
      exact ih hc2 (fun x hx hxB => hothers x (List.mem_cons_of_mem _ hx) hxB)

/-! ## Claim C3 -/

/-- **C3.** When login succeeds, extractor `A` succeeds and extractor `B`
raises (and no other requested extractor fails, `B` being requested once),
`ExtractOrchestrator.extract` returns `success = true`, the data for `A`
bound under `A`'s key in `extracted_data`, and exactly one error entry,
which names `B` (`f"{B}: {e}"`); `B`'s failure does not abort `A` or any
sibling.  The screenshot step is assumed not to raise (it is disabled or
succeeds), since its failure is an unrelated abort path. -/
theorem orchestrator_partial_failure {α : Type} (env : OrchEnv α)
    (lr : MLoginResult) (A B : String) (dA : α) (mB : String)
    (include_ : List String)
    (hl : env.login = .ok lr)
    (hAmem : A ∈ include_)
    (hBmem : B ∈ include_)
    (hBonce : countOcc B include_ = 1)
    (hA : env.run A = .ok dA)
    (hB : env.run B = .raised mB)
    (hothers : ∀ n ∈ include_, ¬n = B → ∃ d, env.run n = .ok d)
    (hshot : env.screenshotsEnabled = false ∨ ∃ p, env.screenshot = .ok p) :
    (orchExtract env (some include_)).success = true ∧
    dictGet (orchExtract env (some include_)).extractedData A = some dA ∧
    (orchExtract env (some include_)).errors = some [B ++ ": " ++ mB] := by
  obtain ⟨sh, hsh⟩ : ∃ sh, (if env.screenshotsEnabled then env.screenshot.map some
      else .ok none : Except String (Option String)) = .ok sh := by
    rcases hshot with h | ⟨p, hp⟩
    · exact ⟨none, by rw [h]; simp⟩
    · cases he : env.screenshotsEnabled
      · exact ⟨none, by simp⟩
      · exact ⟨some p, by rw [hp]; simp [Except.map]⟩
  have herr : (runExtractors env.run include_).2 = [B ++ ": " ++ mB] := by
    rw [runExtractors_errors]
    refine filterMap_errorEntry_singleton env.run B mB hB include_ hBonce ?_
    intro x hx hxB
    obtain ⟨d, hd⟩ := hothers x hx hxB
    simp [extractorErrorEntry, hd]
  have hdata : dictGet (runExtractors env.run include_).1 A = some dA :=
    runExtractors_dictGet env.run A dA hA include_ ([], []) (Or.inl hAmem)
  cases include_ with
  | nil => exact absurd hBmem (List.not_mem_nil B)
  | cons n0 ns =>
    refine ⟨?_, ?_, ?_⟩
    · simp [orchExtract, hl, hsh]
    · simpa [orchExtract, hl, hsh] using hdata
    · simp [orchExtract, hl, hsh, herr]

/-- Login result used by orchestrator witnesses. -/
def lrEx : MLoginResult :=
  { success := true, session_id := "sid", clubs := [], selected_club := none,
    error := none }

/-- Orchestrator environment for the C3 witness: login succeeds,
`profile` extracts `42`, `tasks` raises. -/
def oEnvC3 : OrchEnv Nat :=
  { registryNames := ["profile", "tasks"],
    login := .ok lrEx,
    run := fun n => if n = "profile" then .ok 42
      else if n = "tasks" then .raised "boom" else .ok 0,
    screenshotsEnabled := false,
    screenshot := .ok "p" }

/-- Witness for C3 at a concrete run: `profile` succeeds, `tasks` raises,
the response is successful with `profile` data and exactly the one
`tasks`-error entry. -/
theorem orchestrator_partial_failure_witness :
    oEnvC3.login = .ok lrEx ∧
    oEnvC3.run "profile" = .ok 42 ∧
    oEnvC3.run "tasks" = .raised "boom" ∧
    (orchExtract oEnvC3 (some ["profile", "tasks"])).success = true ∧
    dictGet (orchExtract oEnvC3 (some ["profile", "tasks"])).extractedData
      "profile" = some 42 ∧
    (orchExtract oEnvC3 (some ["profile", "tasks"])).errors =
      some ["tasks" ++ ": " ++ "boom"] := by
  have h := orchestrator_partial_failure oEnvC3 lrEx "profile" "tasks" 42 "boom"
    ["profile", "tasks"] rfl (by decide) (by decide) (by decide) rfl rfl
    (by
      intro n hn hne
      rcases List.mem_cons.mp hn with rfl | hn2
      · exact ⟨42, rfl⟩
      · rcases List.mem_cons.mp hn2 with rfl | hn3
        · exact absurd rfl hne
        · exact absurd hn3 (List.not_mem_nil n))
    (Or.inl rfl)
  exact ⟨rfl, rfl, rfl, h.1, h.2.1, h.2.2⟩

/-! ## Claim C10 -/

/-- Entries contributed by a name whose extractor returns normally can be
filtered out of the requested list without changing the error list. -/
theorem filterMap_filter_of_none {β : Type} (f : String → Option β) (nm : String)
    (hf : f nm = none) :
    ∀ l : List String, l.filterMap f = (l.filter (fun n => !(n = nm))).filterMap f := by
  intro l
  induction l with
  | nil => rfl
  | cons n ns ih =>
    by_cases hn : n = nm
    · subst hn
      simp [List.filter_cons, List.filterMap_cons, hf, ih]
    · simp [List.filter_cons, hn, List.filterMap_cons, ih]

/-- **C10.** `TasksExtractor.extract` never propagates an exception (the
embedding is total): whenever the navigation, the selector wait, or the
evaluation raises, the result is the dict with `active_classes = []`,
`total_classes = 0`, `overall_completion = None` and the `error` key set.
Consequently, since the extractor returns normally, the tasks failure
contributes nothing to the orchestrator's error list: removing `"tasks"`
from the requested names leaves the accumulated error list unchanged. -/
theorem tasks_failure_contained (env : TasksEnv) (m : String)
    (h : env.goto = .error m ∨ (env.goto = .ok () ∧ env.waitSelector = .error m) ∨
      (env.goto = .ok () ∧ env.waitSelector = .ok () ∧ env.evalClasses = .error m)) :
    tasksExtract env = { active_classes := [], total_classes := 0,
                         overall_completion := none,
                         ready_for_investiture_count := none,
                         error := some m } ∧
    (∀ (run : String → ExtractorOutcome TasksData) (include_ : List String),
      run "tasks" = .ok (tasksExtract env) →
      (runExtractors run include_).2 =
        (runExtractors run (include_.filter (fun n => !(n = "tasks")))).2) := by
  constructor
  · rcases h with hg | ⟨hg, hw⟩ | ⟨hg, hw, he⟩
    · simp [tasksExtract, tasksFailure, hg]
    · simp [tasksExtract, tasksFailure, hg, hw]
    · simp [tasksExtract, tasksFailure, hg, hw, he]
  · intro run include_ hrun
    rw [runExtractors_errors, runExtractors_errors]
    exact filterMap_filter_of_none _ "tasks" (by simp [extractorErrorEntry, hrun]) include_

/-- Tasks-extractor environment whose selector wait raises. -/
def tEnvFail : TasksEnv :=
  { goto := .ok (), waitSelector := .error "Timeout 10000ms exceeded",
    evalClasses := .ok [] }

/-- Concrete extractor behaviours for the C10 witness: `tasks` behaves as
the modelled failing extractor (returning its error dict normally), a
sibling succeeds. -/
def runC10 : String → ExtractorOutcome TasksData :=
  fun n => if n = "tasks" then .ok (tasksExtract tEnvFail)
    else .ok (tasksFailure "unused")

/-- Witness for C10: the failing tasks run yields the error dict, and the
orchestrator error list over `["profile", "tasks"]` equals the one with
`"tasks"` filtered out. -/
theorem tasks_failure_contained_witness :
    tEnvFail.waitSelector = .error "Timeout 10000ms exceeded" ∧
    tasksExtract tEnvFail = { active_classes := [], total_classes := 0,
                              overall_completion := none,
                              ready_for_investiture_count := none,
                              error := some "Timeout 10000ms exceeded" } ∧
    (runExtractors runC10 ["profile", "tasks"]).2 =
      (runExtractors runC10 (["profile", "tasks"].filter
        (fun n => !(n = "tasks")))).2 := by
  have h := tasks_failure_contained tEnvFail "Timeout 10000ms exceeded"
    (Or.inr (Or.inl ⟨rfl, rfl⟩))
  exact ⟨rfl, h.1, h.2 runC10 ["profile", "tasks"] rfl⟩

/-! ## Claim C2 -/

/-- `find?` returns the unique element satisfying the predicate. -/
theorem find?_eq_some_of_unique {α : Type} (p : α → Bool) :
    ∀ (l : List α) (c : α), c ∈ l → p c = true →
      (∀ x ∈ l, p x = true → x = c) → l.find? p = some c := by
  intro l
  induction l with
  | nil => intro c hc _ _; exact absurd hc (List.not_mem_nil c)
  | cons a t ih =>
    intro c hc hp huniq
    cases hpa : p a with
    | true =>
      rw [List.find?_cons_of_pos _ hpa]
      exact congrArg some (huniq a (List.mem_cons_self a t) hpa)
    | false =>
      rw [List.find?_cons_of_neg _ (by simp [hpa])]
      rcases List.mem_cons.mp hc with rfl | hct
      · rw [hp] at hpa
        cases hpa
      · exact ih c hct hp (fun x hx hpx => huniq x (List.mem_cons_of_mem _ hx) hpx)

/-- **C2.** Selection by type and name.  First conjunct: when exactly one
parsed option satisfies the primary predicate of
`_find_club_by_type_and_name` (truthy category containing the requested
type, name containing the requested name, case-insensitively), that option
is returned.  Second conjunct: when no option matches under either the
primary predicate or the lenient full-text fallback, `_handle_club_selection`
raises the `LoginError` whose message names the requested pair and whose
details carry the requested type, the requested name and the display
string of every available option. -/
theorem club_selection_unique_and_missing :
    (∀ (clubs : List ClubInfo) (tp nm : String) (c : ClubInfo),
      c ∈ clubs →
      clubPrimaryMatch (pyLowerS tp) (pyLowerS nm) c = true →
      (∀ c2 ∈ clubs, clubPrimaryMatch (pyLowerS tp) (pyLowerS nm) c2 = true → c2 = c) →
      findClubByTypeAndName clubs tp nm = some c) ∧
    (∀ (clubs : List ClubInfo) (tp nm url selectPath : String),
      ¬tp = "" → ¬nm = "" →
      strContains url selectPath = true →
      (∀ c ∈ clubs, clubPrimaryMatch (pyLowerS tp) (pyLowerS nm) c = false ∧
        clubFallbackMatch (pyLowerS tp) (pyLowerS nm) c = false) →
      handleClubSelection url selectPath clubs none (some tp) (some nm) =
        .error (.login ("Club not found: " ++ nm ++ " (" ++ tp ++ ")")
          (.clubNotFound tp nm (clubs.map clubDisplay)))) := by
  constructor
  · intro clubs tp nm c hc hp huniq
    have h1 : List.find? (fun x => clubPrimaryMatch (pyLowerS tp) (pyLowerS nm) x)
        clubs = some c :=
      find?_eq_some_of_unique _ clubs c hc hp huniq
    simp only [findClubByTypeAndName, h1]
  · intro clubs tp nm url selectPath htp hnm hurl hnone
    have h1 : List.find? (fun x => clubPrimaryMatch (pyLowerS tp) (pyLowerS nm) x)
        clubs = none :=
      List.find?_eq_none.mpr (fun c hc => by simp [(hnone c hc).1])
    have h2 : List.find? (fun x => clubFallbackMatch (pyLowerS tp) (pyLowerS nm) x)
        clubs = none :=
      List.find?_eq_none.mpr (fun c hc => by simp [(hnone c hc).2])
    have hfind : findClubByTypeAndName clubs tp nm = none := by
      simp only [findClubByTypeAndName, h1, h2]
    simp [handleClubSelection, hurl, optIntTruthy, optStrTruthy, htp, hnm, hfind]

/-- Club options for the C2 witness. -/
def clubsEx : List ClubInfo :=
  [{ id := 1, name := "Peniel", club_type := some "Aventureros", role := "Miembro",
     full_text := some "Club Peniel, Club de Aventureros como Miembro" },
   { id := 2, name := "Sinai", club_type := some "Conquistadores", role := "Miembro",
     full_text := some "Club Sinai, Club de Conquistadores como Miembro" }]

/-- Witness for C2: with two options, requesting `Aventureros`/`peniel`
selects Peniel uniquely, and requesting `Aventureros`/`Horeb` matches
nothing and raises the enumerating `LoginError`. -/
theorem club_selection_unique_and_missing_witness :
    findClubByTypeAndName clubsEx "Aventureros" "peniel" = some
      { id := 1, name := "Peniel", club_type := some "Aventureros",
        role := "Miembro",
        full_text := some "Club Peniel, Club de Aventureros como Miembro" } ∧
    handleClubSelection "https://x/valida/selecciona-club" "/valida/selecciona-club"
        clubsEx none (some "Aventureros") (some "Horeb") =
      .error (.login "Club not found: Horeb (Aventureros)"
        (.clubNotFound "Aventureros" "Horeb"
          ["Peniel (Aventureros)", "Sinai (Conquistadores)"])) := by
  constructor
  · exact club_selection_unique_and_missing.1 clubsEx "Aventureros" "peniel" _
      (by decide) (by decide) (by decide)
  · have h := club_selection_unique_and_missing.2 clubsEx "Aventureros" "Horeb"
      "https://x/valida/selecciona-club" "/valida/selecciona-club"
      (by decide) (by decide) (by decide) (by decide)
    exact h

/-! ## Substring and strip lemmas for the label-grammar proof -/

/-- Unfolding equation for `splitFirst` on a cons cell. -/
theorem splitFirst_cons (sep : List Char) (c : Char) (t : List Char) :
    splitFirst sep (c :: t) =
      if sep.isPrefixOf (c :: t) then some ([], (c :: t).drop sep.length)
      else (splitFirst sep t).map (fun p => (c :: p.1, p.2)) := rfl

/-- A list is a Boolean prefix of itself followed by anything. -/
theorem isPrefixOf_append_self (sep r : List Char) : sep.isPrefixOf (sep ++ r) = true :=
  List.isPrefixOf_iff_prefix.mpr (List.prefix_append sep r)

/-- A prefix occurrence makes the containment test true. -/
theorem containsB_of_isPrefixOf (l sep : List Char) (h : sep.isPrefixOf l = true) :
    containsB l sep = true := by
  cases l <;> simp [containsB, splitFirst, h]

/-- Containment on a cons cell: a prefix occurrence or one in the tail. -/
theorem containsB_cons (c : Char) (t sep : List Char) :
    containsB (c :: t) sep = (sep.isPrefixOf (c :: t) || containsB t sep) := by
  cases h : sep.isPrefixOf (c :: t) with
  | true => simp [containsB, splitFirst, h]
  | false =>
    simp only [containsB, splitFirst_cons, h, Bool.false_or, if_false,
      Bool.false_eq_true]
    cases splitFirst sep t <;> simp

/-- A separator planted in the middle of a list is found. -/
theorem containsB_append_mid (sep : List Char) (P R : List Char) :
    containsB (P ++ sep ++ R) sep = true := by
  induction P with
  | nil => exact containsB_of_isPrefixOf (sep ++ R) sep (isPrefixOf_append_self sep R)
  | cons c t ih =>
    have hsh : (c :: t) ++ sep ++ R = c :: (t ++ sep ++ R) := by simp
    rw [hsh, containsB_cons, ih, Bool.or_true]

/-- When the separator has no occurrence strictly before position `|P|`
(equivalently, none inside `(P ++ sep).dropLast`), `splitFirst` splits a
planted occurrence exactly at the plant point. -/
theorem splitFirst_append (sep : List Char) (hsep : sep ≠ []) :
    ∀ P R : List Char, containsB ((P ++ sep).dropLast) sep = false →
      splitFirst sep (P ++ sep ++ R) = some (P, R) := by
  intro P
  induction P with
  | nil =>
    intro R _
    obtain ⟨s, ss, rfl⟩ := List.exists_cons_of_ne_nil hsep
    have hsh : ([] : List Char) ++ (s :: ss) ++ R = s :: (ss ++ R) := by simp
    rw [hsh, splitFirst_cons]
    have hpre : (s :: ss).isPrefixOf (s :: (ss ++ R)) = true :=
      isPrefixOf_append_self (s :: ss) R
    rw [if_pos hpre]
    have hdrop : (s :: (ss ++ R)).drop (s :: ss).length = R :=
      List.drop_left (s :: ss) R
    rw [hdrop]
  | cons c P2 ih =>
    intro R h
    have hne : P2 ++ sep ≠ [] := by
      intro hx
      exact hsep (List.append_eq_nil.mp hx).2
    obtain ⟨b, L, hbl⟩ := List.exists_cons_of_ne_nil hne
    have hdl : ((c :: P2) ++ sep).dropLast = c :: (P2 ++ sep).dropLast := by
      rw [List.cons_append, hbl]
      rfl
    rw [hdl, containsB_cons] at h
    have hpre1 : sep.isPrefixOf (c :: (P2 ++ sep).dropLast) = false :=
      (Bool.or_eq_false_iff.mp h).1
    have htail : containsB ((P2 ++ sep).dropLast) sep = false :=
      (Bool.or_eq_false_iff.mp h).2
    have hsh : (c :: P2) ++ sep ++ R = c :: (P2 ++ sep ++ R) := by simp
    rw [hsh, splitFirst_cons]
    have hprefull : sep.isPrefixOf (c :: (P2 ++ sep ++ R)) = false := by
      cases hx : sep.isPrefixOf (c :: (P2 ++ sep ++ R)) with
      | false => rfl
      | true =>
        exfalso
        have hfull : sep <+: c :: (P2 ++ sep ++ R) := List.isPrefixOf_iff_prefix.mp hx
        have hmid : c :: (P2 ++ sep).dropLast <+: c :: (P2 ++ sep ++ R) := by
          rw [List.cons_prefix_cons]
          exact ⟨rfl, (List.dropLast_prefix (P2 ++ sep)).trans
            (List.prefix_append (P2 ++ sep) R)⟩
        have hsep1 : 1 ≤ sep.length := List.length_pos.mpr hsep
        have hlen : sep.length ≤ (c :: (P2 ++ sep).dropLast).length := by
          simp only [List.length_cons, List.length_dropLast, List.length_append]
          omega
        have hp : sep <+: c :: (P2 ++ sep).dropLast :=
          List.prefix_of_prefix_length_le hfull hmid hlen
        rw [← List.isPrefixOf_iff_prefix, hpre1] at hp
        cases hp
    have hneg : ¬sep.isPrefixOf (c :: (P2 ++ sep ++ R)) = true := by
      rw [hprefull]
      exact Bool.false_ne_true
    rw [if_neg hneg, ih R htail]
    rfl

/-- The `rsplit` counterpart: the separator planted last (no occurrence
after the plant point, phrased over the reversed tail) splits there. -/
theorem splitLast_append (sep : List Char) (hsep : sep ≠ []) (P R : List Char)
    (h : containsB ((R.reverse ++ sep.reverse).dropLast) sep.reverse = false) :
    splitLast sep (P ++ sep ++ R) = some (P, R) := by
  unfold splitLast
  have hrev : (P ++ sep ++ R).reverse = R.reverse ++ sep.reverse ++ P.reverse := by
    simp [List.reverse_append, List.append_assoc]
  rw [hrev, splitFirst_append sep.reverse (by simpa using hsep) R.reverse P.reverse h]
  simp

/-- `dropWhile` of whitespace keeps a list whose head is not whitespace. -/
theorem dropWhile_ws_eq_self (l : List Char) (h : headNonWS l = true) :
    l.dropWhile Char.isWhitespace = l := by
  cases l with
  | nil => simp [headNonWS] at h
  | cons c t =>
    have hc : c.isWhitespace = false := by simpa [headNonWS] using h
    simp [List.dropWhile_cons, hc]

/-- The head of the reverse is the last element. -/
theorem headNonWS_reverse (l : List Char) : headNonWS l.reverse = lastNonWS l := by
  unfold headNonWS lastNonWS
  rw [List.head?_reverse]

/-- `strip` is the identity on a list with non-whitespace ends. -/
theorem pyStrip_eq_self (l : List Char) (h1 : headNonWS l = true)
    (h2 : lastNonWS l = true) : pyStrip l = l := by
  unfold pyStrip
  rw [dropWhile_ws_eq_self l h1,
    dropWhile_ws_eq_self l.reverse (by rw [headNonWS_reverse]; exact h2),
    List.reverse_reverse]

/-- A non-whitespace head survives appending on the right. -/
theorem headNonWS_append (x y : List Char) (h : headNonWS x = true) :
    headNonWS (x ++ y) = true := by
  cases x with
  | nil => simp [headNonWS] at h
  | cons c t => simpa [headNonWS] using h

/-- A non-whitespace last element survives appending on the left. -/
theorem lastNonWS_append (x y : List Char) (h : lastNonWS y = true) :
    lastNonWS (x ++ y) = true := by
  rw [← headNonWS_reverse] at h ⊢
  rw [List.reverse_append]
  exact headNonWS_append y.reverse x.reverse h

/-- Lowercasing distributes over append. -/
theorem pyLower_append (a b : List Char) :
    pyLower (a ++ b) = pyLower a ++ pyLower b := by
  simp [pyLower]

/-! ## Claim C6 -/

/-- **C6.** First conjunct: for label texts of the grammar
`"Club X, Club de Y como Z"`, parsing yields name `X`, category
`detectClubType Y` (the normalization of `Y`) and role `Z`.  The side
conditions pin the canonical decomposition of the grammar: `X` and `Y`
have non-whitespace ends (so `strip` is the identity where the parser
strips), `Z` is `strip`-invariant, the separator `" como "` has no later
occurrence (inside `Z`), and `", Club de "` has no earlier occurrence
(inside `"Club X"` or straddling it).  Second conjunct: for every label
text without the `" como "` separator, the role defaults to
`"Miembro"`. -/
theorem parse_club_text_grammar :
    (∀ X Y Z : String,
      headNonWS X.data = true → lastNonWS X.data = true →
      headNonWS Y.data = true → lastNonWS Y.data = true →
      pyStrip Z.data = Z.data →
      containsB ((Z.data.reverse ++ mComo.reverse).dropLast) mComo.reverse = false →
      containsB ((mClubSp ++ X.data ++ mClubDeC).dropLast) mClubDeC = false →
      parseClubText ("Club " ++ X ++ ", Club de " ++ Y ++ " como " ++ Z) =
        (X, detectClubType Y, Z)) ∧
    (∀ s : String, containsB s.data mComo = false →
      (parseClubText s).2.2 = "Miembro") := by
  constructor
  · intro X Y Z hXh hXl hYh hYl hZs hZocc hXocc
    have hdata : ("Club " ++ X ++ ", Club de " ++ Y ++ " como " ++ Z).data =
        mClubSp ++ X.data ++ mClubDeC ++ Y.data ++ mComo ++ Z.data := by
      simp [String.data_append, mClubSp, mClubDeC, mComo]
    have h1 : containsB (mClubSp ++ X.data ++ mClubDeC ++ Y.data ++ mComo ++ Z.data)
        mComo = true :=
      containsB_append_mid mComo (mClubSp ++ X.data ++ mClubDeC ++ Y.data) Z.data
    have h2 : splitLast mComo
        (mClubSp ++ X.data ++ mClubDeC ++ Y.data ++ mComo ++ Z.data) =
        some (mClubSp ++ X.data ++ mClubDeC ++ Y.data, Z.data) :=
      splitLast_append mComo (by decide) _ _ hZocc
    have htwr : pyStrip (mClubSp ++ X.data ++ mClubDeC ++ Y.data) =
        mClubSp ++ X.data ++ mClubDeC ++ Y.data :=
      pyStrip_eq_self _
        (headNonWS_append _ _ (headNonWS_append _ _
          (headNonWS_append _ _ (by decide))))
        (lastNonWS_append _ _ hYl)
    have h3 : containsB (mClubSp ++ X.data ++ mClubDeC ++ Y.data) mClubDeC = true :=
      containsB_append_mid mClubDeC (mClubSp ++ X.data) Y.data
    have h4 : splitFirst mClubDeC (mClubSp ++ X.data ++ mClubDeC ++ Y.data) =
        some (mClubSp ++ X.data, Y.data) :=
      splitFirst_append mClubDeC (by decide) (mClubSp ++ X.data) Y.data hXocc
    have h5 : pyStrip (mClubSp ++ X.data) = mClubSp ++ X.data :=
      pyStrip_eq_self _ (headNonWS_append _ _ (by decide)) (lastNonWS_append _ _ hXl)
    have h6 : "club ".data.isPrefixOf (pyLower (mClubSp ++ X.data)) = true := by
      rw [pyLower_append]
      have hlow : pyLower mClubSp = "club ".data := by decide
      rw [hlow]
      exact isPrefixOf_append_self _ _
    have h7 : (mClubSp ++ X.data).drop 5 = X.data := List.drop_left mClubSp X.data
    have h8 : pyStrip X.data = X.data := pyStrip_eq_self _ hXh hXl
    have h9 : pyStrip Y.data = Y.data := pyStrip_eq_self _ hYh hYl
    simp only [parseClubText, hdata, h1, h2, htwr, h3, h4, h5, h6, h7, h8, h9, hZs,
      if_true, eq_self_iff_true]
  · intro s h
    simp only [parseClubText, h, Bool.false_eq_true, if_false]

/-- Witness for C6: the grammar instance `"Club Peniel, Club de
Aventureros como Director"` parses to `("Peniel", Aventureros,
"Director")`, and a label without `" como "` gets role `"Miembro"`. -/
theorem parse_club_text_grammar_witness :
    parseClubText ("Club " ++ "Peniel" ++ ", Club de " ++ "Aventureros" ++
        " como " ++ "Director") =
      ("Peniel", detectClubType "Aventureros", "Director") ∧
    containsB "Club Alfa".data mComo = false ∧
    (parseClubText "Club Alfa").2.2 = "Miembro" :=
  ⟨parse_club_text_grammar.1 "Peniel" "Aventureros" "Director" (by decide) (by decide)
      (by decide) (by decide) (by decide) (by decide) (by decide),
   by decide,
   parse_club_text_grammar.2 "Club Alfa" (by decide)⟩

end SdaAutomation
